import Mathlib

/-!
Verification of the bounded concurrent URL-discovery crawler in
`scraper.py` (class `VapeScraper`) against its natural-language
specification.

Strings are embedded as `List Char` (Lean string literals are converted
with `String.data`), because the crawler's string operations (Python
`in`, `urlparse(...).netloc`, `str.lower`) must be executable inside the
kernel.  Machine-level HTTP fetching is out of scope of the spec and is
modelled as an oracle `Env`: for every URL and attempt number it yields
either the page's resolved outbound links (the result of `urljoin` over
the page's anchors, as the spec's `parse_links` collaborator describes)
or `none` for a failed attempt (timeout / connection error / non-2xx /
raised exception).
-/

/-- Character-list strings; `String.data` of a literal reduces in the kernel. -/
abbrev Chars := List Char

def toChars (s : String) : Chars := s.data

/-- Model of Python string prefix test on character lists. -/
def chStartsWith : Chars → Chars → Bool
  | _, [] => true
  | [], _ :: _ => false
  | a :: as, b :: bs => a == b && chStartsWith as bs

/-- Model of the Python substring test `pat in s`. -/
def chContains (s pat : Chars) : Bool :=
  chStartsWith s pat ||
    (match s with
     | [] => false
     | _ :: rest => chContains rest pat)

/-- Characters permitted in a URL scheme by `urllib.parse` (after the leading letter). -/
def isSchemeChar (c : Char) : Bool := c.isAlphanum || c == '+' || c == '-' || c == '.'

/-- Split a string at its first colon, dropping the colon (helper for scheme removal). -/
def splitColon : Chars → Chars × Chars
  | [] => ([], [])
  | c :: rest =>
    if c == ':' then ([], rest)
    else
      let (a, b) := splitColon rest
      (c :: a, b)

def hasColon : Chars → Bool
  | [] => false
  | c :: rest => c == ':' || hasColon rest

/-- Model of `urllib.parse` scheme stripping: a leading `scheme:` is removed when the
part before the first colon is a well-formed scheme (letter first, then letters,
digits, `+`, `-`, `.`). -/
def removeScheme (url : Chars) : Chars :=
  if hasColon url then
    let p := splitColon url
    match p.1 with
    | [] => url
    | c :: cs => if c.isAlpha && (c :: cs).all isSchemeChar then p.2 else url
  else url

/-- Model of `urlparse(url).netloc`: after scheme removal, a network location is
present exactly when the remainder starts with `//`, and extends to the next
`/`, `?` or `#`. -/
def netloc (url : Chars) : Chars :=
  match removeScheme url with
  | '/' :: '/' :: rest => rest.takeWhile (fun c => c != '/' && c != '?' && c != '#')
  | _ => []

/-- Model of `str.lower` (ASCII suffices for the URLs and terms involved). -/
def chLower (s : Chars) : Chars := s.map Char.toLower

/-- Site descriptor from `config.py`: `{base_url, product_pattern}`. -/
structure SiteInfo where
  base_url : Chars
  product_pattern : Chars
deriving Repr, DecidableEq

/-- The configured site registry `TARGET_SITES` from `config.py`. -/
def TARGET_SITES : List (String × SiteInfo) :=
  [("vaperanger", ⟨toChars "https://vaperanger.com", toChars "/products/"⟩),
   ("vapewholesale", ⟨toChars "https://vapewholesaleusa.com", toChars "/"⟩)]

/-- Python dict read `m[k]`: `some` the value, or `none` standing for `KeyError`. -/
def dictGet (m : List (String × SiteInfo)) (k : String) : Option SiteInfo :=
  match m.find? (fun p => p.1 == k) with
  | some p => some p.2
  | none => none

/-- Model of `VapeScraper.is_valid_url` (scraper.py:29-35): true iff the URL has a
nonempty network location equal to `base_domain`.  The Python conditional
expression `parsed.netloc == self.base_domain if parsed.netloc else False`
makes an empty netloc invalid even when `base_domain` is empty. -/
def is_valid_url (base_domain url : Chars) : Bool :=
  if netloc url = [] then false else netloc url == base_domain

/-- Model of `VapeScraper.is_product_url` (scraper.py:37-40) with the site's
configured pattern already looked up: `pattern in url`. -/
def is_product_url (pattern url : Chars) : Bool := chContains url pattern

/-- Fetch oracle: for a URL and an attempt index, the resolved outbound links of
the fetched page, or `none` for a failed attempt. -/
structure Env where
  fetch : Chars → Nat → Option (List Chars)

/-- The retry bound `max_retries = 3` of `get_page` (scraper.py:44). -/
def max_retries : Nat := 3

/-- The retry loop of `get_page` (scraper.py:45-54): attempts are issued in
order; the first success is returned; after the last failure the function
returns `none` (Python `None`). -/
def get_page_loop (fetch : Nat → Option (List Chars)) : Nat → Nat → Option (List Chars)
  | _, 0 => none
  | attempt, n + 1 =>
    match fetch attempt with
    | some h => some h
    | none => get_page_loop fetch (attempt + 1) n

/-- Model of `VapeScraper.get_page` (scraper.py:42-54). -/
def get_page (fetch : Nat → Option (List Chars)) : Option (List Chars) :=
  get_page_loop fetch 0 max_retries

/-- Number of HTTP attempts `get_page` issues against a given fetch oracle. -/
def get_page_loop_attempts (fetch : Nat → Option (List Chars)) : Nat → Nat → Nat
  | _, 0 => 0
  | attempt, n + 1 =>
    match fetch attempt with
    | some _ => 1
    | none => 1 + get_page_loop_attempts fetch (attempt + 1) n

def get_page_attempts (fetch : Nat → Option (List Chars)) : Nat :=
  get_page_loop_attempts fetch 0 max_retries

/-- Python `set.add` on a list kept duplicate-free: append if absent. -/
def setAdd (s : List Chars) (u : Chars) : List Chars :=
  if u ∈ s then s else s ++ [u]

/-- The fixed listing-indicator terms of scraper.py:82. -/
def listing_terms : List Chars :=
  [toChars "product", toChars "collection", toChars "category", toChars "shop"]

/-- The test `any(term in full_url.lower() for term in [...])` of scraper.py:82. -/
def hasListingTerm (url : Chars) : Bool :=
  listing_terms.any (fun t => chContains (chLower url) t)

/-- The link-classification loop of `process_page` (scraper.py:72-84), iterating
over the page's resolved outbound links with accumulators for product links and
category links (Python sets, kept insertion-ordered and duplicate-free):
out-of-domain links are skipped; in-domain links matching the product pattern
are added to the product accumulator; remaining links are added to the category
accumulator when not already visited and carrying a listing term. -/
def classifyLinks (base_domain pattern : Chars) (visited : List Chars) :
    List Chars → List Chars × List Chars → List Chars × List Chars
  | [], acc => acc
  | link :: rest, acc =>
    if is_valid_url base_domain link then
      if is_product_url pattern link then
        classifyLinks base_domain pattern visited rest (setAdd acc.1 link, acc.2)
      else if link ∈ visited then
        classifyLinks base_domain pattern visited rest acc
      else if hasListingTerm link then
        classifyLinks base_domain pattern visited rest (acc.1, setAdd acc.2 link)
      else classifyLinks base_domain pattern visited rest acc
    else classifyLinks base_domain pattern visited rest acc

/-- Model of `VapeScraper.process_page` (scraper.py:56-85) in the sequential
(one worker at a time) semantics: given the shared visited set and a URL,
return the updated visited set together with the page's classification result.
A URL already visited is skipped with no work; otherwise it is added to the
visited set, fetched through `get_page`, and on fetch failure the empty
classification result is returned. -/
def process_page (env : Env) (base_domain pattern : Chars) (visited : List Chars)
    (url : Chars) : List Chars × (List Chars × List Chars) :=
  if url ∈ visited then (visited, ([], []))
  else
    let visited' := setAdd visited url
    match get_page (env.fetch url) with
    | none => (visited', ([], []))
    | some links => (visited', classifyLinks base_domain pattern visited' links ([], []))

/-- Crawl-local mutable state of `find_product_urls`: the shared
`self.visited_urls`, the accumulator `product_urls` and the frontier
`urls_to_visit` (Python sets, kept insertion-ordered and duplicate-free). -/
structure CrawlState where
  visited_urls : List Chars
  product_urls : List Chars
  urls_to_visit : List Chars
deriving Repr, DecidableEq

/-- The worker-pool bound `max_workers = 20` (scraper.py:98). -/
def max_workers : Nat := 20

/-- The batch bound `batch = 50` (scraper.py:99). -/
def batch_bound : Nat := 50

/-- The per-future merge step of scraper.py:114-127: new product links are the
page's product links minus those already accumulated; when they would overflow
the budget only `max_urls - len(product_urls)` of them are admitted; category
links are enqueued (minus visited and minus the frontier) only while the
accumulator is still below the budget. -/
def mergeResult (max_urls : Nat) (st : CrawlState)
    (page_products page_categories : List Chars) : CrawlState :=
  let new_products := page_products.filter (fun u => decide (u ∉ st.product_urls))
  let product_urls :=
    if st.product_urls.length + new_products.length > max_urls then
      st.product_urls ++ new_products.take (max_urls - st.product_urls.length)
    else
      st.product_urls ++ new_products
  let urls_to_visit :=
    if product_urls.length < max_urls then
      st.urls_to_visit ++ page_categories.filter
        (fun u => decide (u ∉ st.visited_urls) && decide (u ∉ st.urls_to_visit))
    else st.urls_to_visit
  { st with product_urls := product_urls, urls_to_visit := urls_to_visit }

/-- One worker of a batch in the sequential semantics: run `process_page` on the
URL against the shared visited set, then merge its completed result
(scraper.py:111-127). -/
def batchStep (env : Env) (base_domain pattern : Chars) (max_urls : Nat)
    (st : CrawlState) (url : Chars) : CrawlState :=
  let r := process_page env base_domain pattern st.visited_urls url
  mergeResult max_urls { st with visited_urls := r.1 } r.2.1 r.2.2

/-- One iteration of the while loop of scraper.py:101-132: draw up to
`batch_bound` URLs from the frontier, remove them from the frontier, and
process and merge each of them. -/
def runBatch (env : Env) (base_domain pattern : Chars) (max_urls : Nat)
    (st : CrawlState) : CrawlState :=
  let current_batch := st.urls_to_visit.take batch_bound
  List.foldl (batchStep env base_domain pattern max_urls)
    { st with urls_to_visit := st.urls_to_visit.drop batch_bound } current_batch

/-- The while loop of scraper.py:101-132 (`while urls_to_visit and
len(product_urls) < max_urls`), with explicit fuel bounding the number of
iterations; when the loop exits — and also when fuel runs out — the accumulated
product URLs are returned. -/
def crawlLoop (env : Env) (base_domain pattern : Chars) (max_urls : Nat) :
    Nat → CrawlState → List Chars
  | 0, st => st.product_urls
  | fuel + 1, st =>
    if st.urls_to_visit ≠ [] ∧ st.product_urls.length < max_urls then
      crawlLoop env base_domain pattern max_urls fuel
        (runBatch env base_domain pattern max_urls st)
    else st.product_urls

/-- Batch-boundary states traversed by `crawlLoop`, in order (observer used to
state reachability of intermediate crawl states). -/
def crawlTrace (env : Env) (base_domain pattern : Chars) (max_urls : Nat) :
    Nat → CrawlState → List CrawlState
  | 0, st => [st]
  | fuel + 1, st =>
    if st.urls_to_visit ≠ [] ∧ st.product_urls.length < max_urls then
      st :: crawlTrace env base_domain pattern max_urls fuel
        (runBatch env base_domain pattern max_urls st)
    else [st]

/-- Residual instance attributes of a `VapeScraper` object that an earlier
invocation may have left behind (scraper.py:21-24). -/
structure ScraperState where
  visited_urls : List Chars
  products : List Chars
  product_urls : List Chars
deriving Repr, DecidableEq

/-- The crawl state built at scraper.py:94-96: `self.visited_urls = set()`,
fresh local `product_urls = set()`, and `urls_to_visit = {self.base_url}`. -/
def initCrawlState (site_info : SiteInfo) : CrawlState :=
  { visited_urls := [], product_urls := [], urls_to_visit := [site_info.base_url] }

/-- Model of `VapeScraper.find_product_urls` (scraper.py:87-134).  The dict read
`self.target_sites[site_name]` raises `KeyError` for an unknown site, modelled
as `Except.error "KeyError"`; otherwise the crawl runs from the freshly reset
state — the residual `ScraperState` is overwritten at scraper.py:94 and never
read — and the accumulated product URLs are returned. -/
def find_product_urls (env : Env) (_s : ScraperState) (site_name : String)
    (max_urls : Nat) (fuel : Nat) : Except String (List Chars) :=
  match dictGet TARGET_SITES site_name with
  | none => Except.error "KeyError"
  | some site_info =>
    Except.ok (crawlLoop env (netloc site_info.base_url) site_info.product_pattern
      max_urls fuel (initCrawlState site_info))

/-- Batch-boundary states traversed by `find_product_urls` (observer). -/
def find_product_urls_states (env : Env) (_s : ScraperState) (site_name : String)
    (max_urls : Nat) (fuel : Nat) : List CrawlState :=
  match dictGet TARGET_SITES site_name with
  | none => []
  | some site_info =>
    crawlTrace env (netloc site_info.base_url) site_info.product_pattern
      max_urls fuel (initCrawlState site_info)

/-!
Two-worker interleaving model of the entry of `process_page`
(scraper.py:58-63).  The body decomposes into three atomic actions per
worker: reading `url in self.visited_urls` (scraper.py:58, performed
WITHOUT holding `found_urls_lock`), the locked `self.visited_urls.add(url)`
(scraper.py:61-62, one atomic action since it holds the lock), and the
fetch that follows (scraper.py:64).  Program counters: 0 = before the
membership test, 1 = test passed, about to run the locked add, 2 = added,
about to fetch, 3 = finished (either skipped or fetched).
-/

structure Worker where
  pc : Nat
  fetched : Bool
deriving Repr, DecidableEq

/-- One atomic action of a worker running the entry of `process_page` on `url`
against the shared visited set, as the code is written: the membership test and
the locked insertion are two separate atomic actions. -/
def stepWorker (url : Chars) : List Chars × Worker → List Chars × Worker
  | (v, w) =>
    if w.pc = 0 then
      if url ∈ v then (v, { w with pc := 3 }) else (v, { w with pc := 1 })
    else if w.pc = 1 then (setAdd v url, { w with pc := 2 })
    else if w.pc = 2 then (v, { pc := 3, fetched := true })
    else (v, w)

structure RaceState where
  visited : List Chars
  w1 : Worker
  w2 : Worker
deriving Repr, DecidableEq

/-- Run one atomic action of the chosen worker (`true` picks worker 1). -/
def raceStep (url : Chars) (s : RaceState) (choice : Bool) : RaceState :=
  if choice then
    let r := stepWorker url (s.visited, s.w1)
    { s with visited := r.1, w1 := r.2 }
  else
    let r := stepWorker url (s.visited, s.w2)
    { s with visited := r.1, w2 := r.2 }

/-- Run a whole schedule of interleaved atomic actions of the two workers. -/
def raceRun (url : Chars) (sched : List Bool) (s : RaceState) : RaceState :=
  sched.foldl (raceStep url) s

def initRaceState : RaceState := ⟨[], ⟨0, false⟩, ⟨0, false⟩⟩

/-- Modelled from the spec: the membership test and the insertion fused into
one atomic test-and-set, the synchronization discipline section 4.2 of the
spec asserts for the Visited Set (the code under src/ instead performs the
test outside the lock). -/
def stepWorkerAtomic (url : Chars) : List Chars × Worker → List Chars × Worker
  | (v, w) =>
    if w.pc = 0 then
      if url ∈ v then (v, { w with pc := 3 })
      else (setAdd v url, { w with pc := 2 })
    else if w.pc = 2 then (v, { pc := 3, fetched := true })
    else (v, w)

def raceStepAtomic (url : Chars) (s : RaceState) (choice : Bool) : RaceState :=
  if choice then
    let r := stepWorkerAtomic url (s.visited, s.w1)
    { s with visited := r.1, w1 := r.2 }
  else
    let r := stepWorkerAtomic url (s.visited, s.w2)
    { s with visited := r.1, w2 := r.2 }

def raceRunAtomic (url : Chars) (sched : List Bool) (s : RaceState) : RaceState :=
  sched.foldl (raceStepAtomic url) s

/-- Fetch oracle in which every attempt fails. -/
def envFail : Env := ⟨fun _ _ => none⟩

/-- Fetch oracle in which every page is empty. -/
def envEmpty : Env := ⟨fun _ _ => some []⟩

/-- Fetch oracle for the frontier/visited counterexample: the vaperanger seed
page links to two category pages, and the first category page links to the
second one. -/
def envC4 : Env := ⟨fun url _ =>
  if url = toChars "https://vaperanger.com" then
    some [toChars "https://vaperanger.com/category/a",
          toChars "https://vaperanger.com/category/b"]
  else if url = toChars "https://vaperanger.com/category/a" then
    some [toChars "https://vaperanger.com/category/b"]
  else some []⟩

/-- Fetch oracle for concrete witnesses: the vaperanger seed page links to one
product page and one foreign-domain page. -/
def envWitness : Env := ⟨fun url _ =>
  if url = toChars "https://vaperanger.com" then
    some [toChars "https://vaperanger.com/products/a",
          toChars "https://other.test/products/z"]
  else some []⟩

/-- A scraper object with no residual state. -/
def freshScraper : ScraperState := ⟨[], [], []⟩

/-- A scraper object with residual visited URLs left by an earlier crawl. -/
def staleScraper : ScraperState :=
  ⟨[toChars "https://vaperanger.com", toChars "https://vaperanger.com/products/a"], [], []⟩

example : netloc (toChars "https://vaperanger.com/products/a") = toChars "vaperanger.com" := by
  decide

example : is_valid_url (netloc (toChars "https://vaperanger.com"))
    (toChars "https://vaperanger.com/products/a") = true := by decide

example : is_valid_url (netloc (toChars "https://vaperanger.com"))
    (toChars "https://other.test/products/z") = false := by decide

example : is_product_url (toChars "/products/") (toChars "https://vaperanger.com/products/a") = true := by
  decide

example : hasListingTerm (toChars "https://vaperanger.com/COLLECTIONS/x") = true := by decide

example : hasListingTerm (toChars "https://vaperanger.com/about") = false := by decide

/-! Basic lemmas on the set-as-list operations and the URL predicates. -/

theorem setAdd_mem {s : List Chars} {v u : Chars} :
    u ∈ setAdd s v ↔ u ∈ s ∨ u = v := by
  unfold setAdd
  split
  · next h =>
    constructor
    · exact fun hu => Or.inl hu
    · rintro (hu | rfl)
      · exact hu
      · exact h
  · simp

theorem setAdd_nodup {s : List Chars} {v : Chars} (h : s.Nodup) :
    (setAdd s v).Nodup := by
  unfold setAdd
  split
  · exact h
  · next hv => simpa [List.nodup_append] using ⟨h, hv⟩

theorem is_valid_url_eq_true {d u : Chars} (h : is_valid_url d u = true) :
    netloc u = d := by
  unfold is_valid_url at h
  split at h
  · exact absurd h (by simp)
  · exact eq_of_beq h

theorem is_valid_url_iff {d u : Chars} (hd : d ≠ []) :
    is_valid_url d u = true ↔ netloc u = d := by
  constructor
  · exact is_valid_url_eq_true
  · intro h
    unfold is_valid_url
    split
    · next h0 => exact absurd (h0 ▸ h).symm hd
    · simp [h]

/-! Lemmas on the retry loop of get_page. -/

theorem get_page_loop_attempts_le (fetch : Nat → Option (List Chars)) :
    ∀ n attempt, get_page_loop_attempts fetch attempt n ≤ n := by
  intro n
  induction n with
  | zero => intro attempt; simp [get_page_loop_attempts]
  | succ n ih =>
    intro attempt
    unfold get_page_loop_attempts
    split
    · omega
    · have := ih (attempt + 1); omega

theorem get_page_loop_none (fetch : Nat → Option (List Chars)) :
    ∀ n attempt, (∀ a, attempt ≤ a → a < attempt + n → fetch a = none) →
      get_page_loop fetch attempt n = none := by
  intro n
  induction n with
  | zero => intro attempt _; simp [get_page_loop]
  | succ n ih =>
    intro attempt h
    unfold get_page_loop
    have h0 : fetch attempt = none := h attempt le_rfl (by omega)
    rw [h0]
    exact ih (attempt + 1) (fun a ha ha2 => h a (by omega) (by omega))

theorem get_page_none {fetch : Nat → Option (List Chars)}
    (h : ∀ a, a < max_retries → fetch a = none) : get_page fetch = none := by
  unfold get_page
  exact get_page_loop_none fetch max_retries 0 (fun a _ ha2 => h a (by omega))

/-! Step equations for the classification loop, one per branch of
scraper.py:72-84. -/

theorem classifyLinks_nil (d pat : Chars) (visited : List Chars)
    (acc : List Chars × List Chars) :
    classifyLinks d pat visited [] acc = acc := rfl

theorem classifyLinks_cons_invalid {d link : Chars} (pat : Chars)
    (visited : List Chars) {rest : List Chars} {acc : List Chars × List Chars}
    (h : is_valid_url d link = false) :
    classifyLinks d pat visited (link :: rest) acc =
      classifyLinks d pat visited rest acc := by
  conv_lhs => rw [classifyLinks]
  simp [h]

theorem classifyLinks_cons_product {d pat link : Chars}
    (visited : List Chars) {rest : List Chars} {acc : List Chars × List Chars}
    (h : is_valid_url d link = true) (hp : is_product_url pat link = true) :
    classifyLinks d pat visited (link :: rest) acc =
      classifyLinks d pat visited rest (setAdd acc.1 link, acc.2) := by
  conv_lhs => rw [classifyLinks]
  simp [h, hp]

theorem classifyLinks_cons_visited {d pat link : Chars}
    {visited : List Chars} {rest : List Chars} {acc : List Chars × List Chars}
    (h : is_valid_url d link = true) (hp : is_product_url pat link = false)
    (hm : link ∈ visited) :
    classifyLinks d pat visited (link :: rest) acc =
      classifyLinks d pat visited rest acc := by
  conv_lhs => rw [classifyLinks]
  simp [h, hp, hm]

theorem classifyLinks_cons_term {d pat link : Chars}
    {visited : List Chars} {rest : List Chars} {acc : List Chars × List Chars}
    (h : is_valid_url d link = true) (hp : is_product_url pat link = false)
    (hm : link ∉ visited) (ht : hasListingTerm link = true) :
    classifyLinks d pat visited (link :: rest) acc =
      classifyLinks d pat visited rest (acc.1, setAdd acc.2 link) := by
  conv_lhs => rw [classifyLinks]
  simp [h, hp, hm, ht]

theorem classifyLinks_cons_drop {d pat link : Chars}
    {visited : List Chars} {rest : List Chars} {acc : List Chars × List Chars}
    (h : is_valid_url d link = true) (hp : is_product_url pat link = false)
    (hm : link ∉ visited) (ht : hasListingTerm link = false) :
    classifyLinks d pat visited (link :: rest) acc =
      classifyLinks d pat visited rest acc := by
  conv_lhs => rw [classifyLinks]
  simp [h, hp, hm, ht]

/-! Membership characterization of the classification loop: exactly the
partition of scraper.py:72-84. -/

theorem classifyLinks_fst_mem (d pat : Chars) (visited : List Chars) :
    ∀ (links : List Chars) (acc : List Chars × List Chars) (u : Chars),
      u ∈ (classifyLinks d pat visited links acc).1 ↔
        u ∈ acc.1 ∨ (u ∈ links ∧ is_valid_url d u = true ∧ is_product_url pat u = true) := by
  intro links
  induction links with
  | nil => intro acc u; simp [classifyLinks_nil]
  | cons link rest ih =>
    intro acc u
    cases hv : is_valid_url d link with
    | false =>
      rw [classifyLinks_cons_invalid pat visited hv, ih, List.mem_cons]
      constructor
      · rintro (h | h)
        · exact Or.inl h
        · exact Or.inr ⟨Or.inr h.1, h.2⟩
      · rintro (h | ⟨(rfl | h), hs⟩)
        · exact Or.inl h
        · exact absurd hs.1 (by simp [hv])
        · exact Or.inr ⟨h, hs⟩
    | true =>
      cases hp : is_product_url pat link with
      | true =>
        rw [classifyLinks_cons_product visited hv hp, ih, List.mem_cons]
        simp only [setAdd_mem]
        constructor
        · rintro ((h | rfl) | h)
          · exact Or.inl h
          · exact Or.inr ⟨Or.inl rfl, hv, hp⟩
          · exact Or.inr ⟨Or.inr h.1, h.2⟩
        · rintro (h | ⟨(rfl | h), hs⟩)
          · exact Or.inl (Or.inl h)
          · exact Or.inl (Or.inr rfl)
          · exact Or.inr ⟨h, hs⟩
      | false =>
        have tail : u ∈ (classifyLinks d pat visited rest acc).1 ↔
            u ∈ acc.1 ∨ (u ∈ link :: rest ∧ is_valid_url d u = true ∧
              is_product_url pat u = true) := by
          rw [ih, List.mem_cons]
          constructor
          · rintro (h | h)
            · exact Or.inl h
            · exact Or.inr ⟨Or.inr h.1, h.2⟩
          · rintro (h | ⟨(rfl | h), hs⟩)
            · exact Or.inl h
            · exact absurd hs.2 (by simp [hp])
            · exact Or.inr ⟨h, hs⟩
        by_cases hm : link ∈ visited
        · rw [classifyLinks_cons_visited hv hp hm]; exact tail
        · cases ht : hasListingTerm link with
          | true =>
            rw [classifyLinks_cons_term hv hp hm ht]
            rw [show ((acc.1, setAdd acc.2 link) : List Chars × List Chars).1 = acc.1 from rfl] at *
            rw [ih, List.mem_cons]
            constructor
            · rintro (h | h)
              · exact Or.inl h
              · exact Or.inr ⟨Or.inr h.1, h.2⟩
            · rintro (h | ⟨(rfl | h), hs⟩)
              · exact Or.inl h
              · exact absurd hs.2 (by simp [hp])
              · exact Or.inr ⟨h, hs⟩
          | false =>
            rw [classifyLinks_cons_drop hv hp hm ht]; exact tail

theorem classifyLinks_snd_mem (d pat : Chars) (visited : List Chars) :
    ∀ (links : List Chars) (acc : List Chars × List Chars) (u : Chars),
      u ∈ (classifyLinks d pat visited links acc).2 ↔
        u ∈ acc.2 ∨ (u ∈ links ∧ is_valid_url d u = true ∧ is_product_url pat u = false ∧
          u ∉ visited ∧ hasListingTerm u = true) := by
  intro links
  induction links with
  | nil => intro acc u; simp [classifyLinks_nil]
  | cons link rest ih =>
    intro acc u
    have tail : ∀ acc2 : List Chars × List Chars, acc2.2 = acc.2 →
        (u = link → is_valid_url d u = true ∧ is_product_url pat u = false ∧
          u ∉ visited ∧ hasListingTerm u = true → False) →
        (u ∈ (classifyLinks d pat visited rest acc2).2 ↔
          u ∈ acc.2 ∨ (u ∈ link :: rest ∧ is_valid_url d u = true ∧
            is_product_url pat u = false ∧ u ∉ visited ∧ hasListingTerm u = true)) := by
      intro acc2 hacc hne
      rw [ih, hacc, List.mem_cons]
      constructor
      · rintro (h | h)
        · exact Or.inl h
        · exact Or.inr ⟨Or.inr h.1, h.2⟩
      · rintro (h | ⟨(rfl | h), hs⟩)
        · exact Or.inl h
        · exact absurd hs (hne rfl)
        · exact Or.inr ⟨h, hs⟩
    cases hv : is_valid_url d link with
    | false =>
      rw [classifyLinks_cons_invalid pat visited hv]
      refine tail acc rfl ?_
      rintro rfl
      intro hs
      exact absurd hs.1 (by simp [hv])
    | true =>
      cases hp : is_product_url pat link with
      | true =>
        rw [classifyLinks_cons_product visited hv hp]
        refine tail (setAdd acc.1 link, acc.2) rfl ?_
        rintro rfl
        intro hs
        exact absurd hs.2.1 (by simp [hp])
      | false =>
        by_cases hm : link ∈ visited
        · rw [classifyLinks_cons_visited hv hp hm]
          refine tail acc rfl ?_
          rintro rfl
          intro hs
          exact absurd hm hs.2.2.1
        · cases ht : hasListingTerm link with
          | true =>
            rw [classifyLinks_cons_term hv hp hm ht, ih, List.mem_cons]
            rw [show ((acc.1, setAdd acc.2 link) : List Chars × List Chars).2 =
              setAdd acc.2 link from rfl]
            simp only [setAdd_mem]
            constructor
            · rintro ((h | rfl) | h)
              · exact Or.inl h
              · exact Or.inr ⟨Or.inl rfl, hv, hp, hm, ht⟩
              · exact Or.inr ⟨Or.inr h.1, h.2⟩
            · rintro (h | ⟨(rfl | h), hs⟩)
              · exact Or.inl (Or.inl h)
              · exact Or.inl (Or.inr rfl)
              · exact Or.inr ⟨h, hs⟩
          | false =>
            rw [classifyLinks_cons_drop hv hp hm ht]
            refine tail acc rfl ?_
            rintro rfl
            intro hs
            exact absurd hs.2.2.2 (by simp [ht])

theorem classifyLinks_fst_nodup (d pat : Chars) (visited : List Chars) :
    ∀ (links : List Chars) (acc : List Chars × List Chars),
      acc.1.Nodup → (classifyLinks d pat visited links acc).1.Nodup := by
  intro links
  induction links with
  | nil => intro acc h; simpa [classifyLinks_nil] using h
  | cons link rest ih =>
    intro acc h
    cases hv : is_valid_url d link with
    | false => rw [classifyLinks_cons_invalid pat visited hv]; exact ih acc h
    | true =>
      cases hp : is_product_url pat link with
      | true =>
        rw [classifyLinks_cons_product visited hv hp]
        exact ih _ (setAdd_nodup h)
      | false =>
        by_cases hm : link ∈ visited
        · rw [classifyLinks_cons_visited hv hp hm]; exact ih acc h
        · cases ht : hasListingTerm link with
          | true => rw [classifyLinks_cons_term hv hp hm ht]; exact ih _ h
          | false => rw [classifyLinks_cons_drop hv hp hm ht]; exact ih acc h

/-! Lemmas on process_page. -/

theorem process_page_visited {env : Env} {d pat : Chars} {v : List Chars} {url : Chars}
    (h : url ∈ v) : process_page env d pat v url = (v, ([], [])) := by
  unfold process_page
  rw [if_pos h]

theorem process_page_fst_good {env : Env} {d pat : Chars} {v : List Chars} {url u : Chars}
    (hu : u ∈ (process_page env d pat v url).2.1) :
    is_valid_url d u = true ∧ is_product_url pat u = true := by
  by_cases h : url ∈ v
  · rw [process_page_visited h] at hu
    exact absurd hu (by simp)
  · unfold process_page at hu
    rw [if_neg h] at hu
    cases hg : get_page (env.fetch url) with
    | none => rw [hg] at hu; exact absurd hu (by simp)
    | some links =>
      rw [hg] at hu
      simp only at hu
      rw [classifyLinks_fst_mem] at hu
      rcases hu with h1 | h1
      · exact absurd h1 (by simp)
      · exact h1.2

theorem process_page_fst_nodup (env : Env) (d pat : Chars) (v : List Chars) (url : Chars) :
    (process_page env d pat v url).2.1.Nodup := by
  by_cases h : url ∈ v
  · rw [process_page_visited h]; simp
  · unfold process_page
    rw [if_neg h]
    cases hg : get_page (env.fetch url) with
    | none => simp
    | some links =>
      simp only
      exact classifyLinks_fst_nodup d pat _ links ([], []) (by simp)

/-! Projection equations and lemmas for the per-future merge step. -/

theorem mergeResult_product_urls (max_urls : Nat) (st : CrawlState) (pp pc : List Chars) :
    (mergeResult max_urls st pp pc).product_urls =
      (if st.product_urls.length +
            (pp.filter (fun u => decide (u ∉ st.product_urls))).length > max_urls then
        st.product_urls ++ (pp.filter (fun u => decide (u ∉ st.product_urls))).take
          (max_urls - st.product_urls.length)
      else st.product_urls ++ pp.filter (fun u => decide (u ∉ st.product_urls))) := rfl

theorem mergeResult_urls_to_visit (max_urls : Nat) (st : CrawlState) (pp pc : List Chars) :
    (mergeResult max_urls st pp pc).urls_to_visit =
      (if (mergeResult max_urls st pp pc).product_urls.length < max_urls then
        st.urls_to_visit ++ pc.filter
          (fun u => decide (u ∉ st.visited_urls) && decide (u ∉ st.urls_to_visit))
      else st.urls_to_visit) := rfl

theorem mergeResult_visited_urls (max_urls : Nat) (st : CrawlState) (pp pc : List Chars) :
    (mergeResult max_urls st pp pc).visited_urls = st.visited_urls := rfl

theorem mergeResult_len_le {max_urls : Nat} {st : CrawlState} {pp pc : List Chars}
    (h : st.product_urls.length ≤ max_urls) :
    (mergeResult max_urls st pp pc).product_urls.length ≤ max_urls := by
  rw [mergeResult_product_urls]
  split
  · next hc =>
    rw [List.length_append, List.length_take]
    omega
  · next hc =>
    rw [List.length_append]
    omega

theorem mergeResult_mem {max_urls : Nat} {st : CrawlState} {pp pc : List Chars} {u : Chars}
    (hu : u ∈ (mergeResult max_urls st pp pc).product_urls) :
    u ∈ st.product_urls ∨ u ∈ pp := by
  rw [mergeResult_product_urls] at hu
  have hfil : ∀ w ∈ pp.filter (fun x => decide (x ∉ st.product_urls)), w ∈ pp :=
    fun w hw => (List.mem_filter.mp hw).1
  split at hu <;> rw [List.mem_append] at hu <;> rcases hu with h1 | h1
  · exact Or.inl h1
  · exact Or.inr (hfil u (List.take_subset _ _ h1))
  · exact Or.inl h1
  · exact Or.inr (hfil u h1)

theorem mergeResult_nodup {max_urls : Nat} {st : CrawlState} {pp pc : List Chars}
    (h1 : st.product_urls.Nodup) (h2 : pp.Nodup) :
    (mergeResult max_urls st pp pc).product_urls.Nodup := by
  rw [mergeResult_product_urls]
  have hf : (pp.filter (fun u => decide (u ∉ st.product_urls))).Nodup := h2.filter _
  have hfd : ∀ w ∈ pp.filter (fun u => decide (u ∉ st.product_urls)),
      w ∉ st.product_urls :=
    fun w hw => of_decide_eq_true (List.mem_filter.mp hw).2
  split
  · refine List.Nodup.append h1 (hf.sublist (List.take_sublist _ _)) ?_
    intro a ha hb
    exact hfd a (List.take_subset _ _ hb) ha
  · refine List.Nodup.append h1 hf ?_
    intro a ha hb
    exact hfd a hb ha

theorem mergeResult_boundary {max_urls m : Nat} {st : CrawlState} {pp pc : List Chars}
    (hlen : st.product_urls.length = max_urls - m) (hm : m ≤ max_urls)
    (hk : m < (pp.filter (fun u => decide (u ∉ st.product_urls))).length) :
    (mergeResult max_urls st pp pc).product_urls =
      st.product_urls ++ (pp.filter (fun u => decide (u ∉ st.product_urls))).take m ∧
    (mergeResult max_urls st pp pc).product_urls.length = max_urls := by
  rw [mergeResult_product_urls]
  have hcond : st.product_urls.length +
      (pp.filter (fun u => decide (u ∉ st.product_urls))).length > max_urls := by omega
  rw [if_pos hcond]
  have hms : max_urls - st.product_urls.length = m := by omega
  rw [hms]
  refine ⟨rfl, ?_⟩
  rw [List.length_append, List.length_take, Nat.min_eq_left (le_of_lt hk)]
  omega

/-! The crawl invariant: the accumulated product URLs stay within budget,
duplicate-free, in-domain and pattern-matching. -/

structure CrawlInv (base_domain pattern : Chars) (max_urls : Nat)
    (st : CrawlState) : Prop where
  len_le : st.product_urls.length ≤ max_urls
  nodup : st.product_urls.Nodup
  good : ∀ u ∈ st.product_urls,
    is_valid_url base_domain u = true ∧ is_product_url pattern u = true

theorem batchStep_inv {env : Env} {base_domain pattern : Chars} {max_urls : Nat}
    {st : CrawlState} {url : Chars}
    (h : CrawlInv base_domain pattern max_urls st) :
    CrawlInv base_domain pattern max_urls (batchStep env base_domain pattern max_urls st url) := by
  unfold batchStep
  set r := process_page env base_domain pattern st.visited_urls url with hr
  set st' : CrawlState := { st with visited_urls := r.1 } with hst
  have hlen : st'.product_urls.length ≤ max_urls := h.len_le
  have hnd : st'.product_urls.Nodup := h.nodup
  have hgood : ∀ u ∈ st'.product_urls,
      is_valid_url base_domain u = true ∧ is_product_url pattern u = true := h.good
  refine ⟨mergeResult_len_le hlen, mergeResult_nodup hnd ?_, ?_⟩
  · rw [hr]; exact process_page_fst_nodup env base_domain pattern st.visited_urls url
  · intro u hu
    rcases mergeResult_mem hu with h1 | h1
    · exact hgood u h1
    · exact process_page_fst_good h1

theorem foldl_batchStep_inv (env : Env) (base_domain pattern : Chars) (max_urls : Nat) :
    ∀ (l : List Chars) (st : CrawlState),
      CrawlInv base_domain pattern max_urls st →
      CrawlInv base_domain pattern max_urls
        (List.foldl (batchStep env base_domain pattern max_urls) st l) := by
  intro l
  induction l with
  | nil => intro st h; exact h
  | cons x xs ih => intro st h; exact ih _ (batchStep_inv h)

theorem runBatch_inv {env : Env} {base_domain pattern : Chars} {max_urls : Nat}
    {st : CrawlState} (h : CrawlInv base_domain pattern max_urls st) :
    CrawlInv base_domain pattern max_urls (runBatch env base_domain pattern max_urls st) := by
  unfold runBatch
  exact foldl_batchStep_inv env base_domain pattern max_urls _ _ ⟨h.len_le, h.nodup, h.good⟩

theorem crawlLoop_result (env : Env) (base_domain pattern : Chars) (max_urls : Nat) :
    ∀ (fuel : Nat) (st : CrawlState), CrawlInv base_domain pattern max_urls st →
      ∃ st' : CrawlState,
        crawlLoop env base_domain pattern max_urls fuel st = st'.product_urls ∧
        CrawlInv base_domain pattern max_urls st' := by
  intro fuel
  induction fuel with
  | zero => intro st h; exact ⟨st, rfl, h⟩
  | succ fuel ih =>
    intro st h
    unfold crawlLoop
    split
    · exact ih _ (runBatch_inv h)
    · exact ⟨st, rfl, h⟩

theorem initCrawlState_inv (base_domain pattern : Chars) (max_urls : Nat)
    (site_info : SiteInfo) :
    CrawlInv base_domain pattern max_urls (initCrawlState site_info) :=
  ⟨by simp [initCrawlState], by simp [initCrawlState], by simp [initCrawlState]⟩

theorem find_product_urls_ok {env : Env} {s : ScraperState} {site_name : String}
    {site_info : SiteInfo} {max_urls fuel : Nat}
    (h : dictGet TARGET_SITES site_name = some site_info) :
    find_product_urls env s site_name max_urls fuel =
      Except.ok (crawlLoop env (netloc site_info.base_url) site_info.product_pattern
        max_urls fuel (initCrawlState site_info)) := by
  unfold find_product_urls
  rw [h]

theorem find_product_urls_spec {env : Env} {s : ScraperState} {site_name : String}
    {site_info : SiteInfo} {max_urls fuel : Nat} {res : List Chars}
    (h : dictGet TARGET_SITES site_name = some site_info)
    (hres : find_product_urls env s site_name max_urls fuel = Except.ok res) :
    res.length ≤ max_urls ∧ res.Nodup ∧
      ∀ u ∈ res, is_valid_url (netloc site_info.base_url) u = true ∧
        is_product_url site_info.product_pattern u = true := by
  rw [find_product_urls_ok h] at hres
  obtain ⟨st', he, hinv⟩ := crawlLoop_result env (netloc site_info.base_url)
    site_info.product_pattern max_urls fuel (initCrawlState site_info)
    (initCrawlState_inv _ _ _ _)
  rw [he] at hres
  obtain rfl : st'.product_urls = res := Except.ok.inj hres
  exact ⟨hinv.len_le, hinv.nodup, hinv.good⟩

/-! Lemmas for termination on an empty frontier and freezing at the budget. -/

theorem crawlLoop_empty_frontier {env : Env} {d pat : Chars} {max_urls : Nat}
    (fuel : Nat) {st : CrawlState} (h : st.urls_to_visit = []) :
    crawlLoop env d pat max_urls fuel st = st.product_urls := by
  cases fuel with
  | zero => rfl
  | succ n =>
    unfold crawlLoop
    rw [if_neg (fun hc => hc.1 h)]

theorem crawlLoop_complete {env : Env} {d pat : Chars} {max_urls : Nat}
    (fuel : Nat) {st : CrawlState} (h : max_urls ≤ st.product_urls.length) :
    crawlLoop env d pat max_urls fuel st = st.product_urls := by
  cases fuel with
  | zero => rfl
  | succ n =>
    unfold crawlLoop
    rw [if_neg (fun hc => absurd hc.2 (by omega))]

theorem mergeResult_complete {max_urls : Nat} {st : CrawlState} {pp pc : List Chars}
    (h : max_urls ≤ st.product_urls.length) :
    (mergeResult max_urls st pp pc).product_urls = st.product_urls ∧
    (mergeResult max_urls st pp pc).urls_to_visit = st.urls_to_visit := by
  have hp : (mergeResult max_urls st pp pc).product_urls = st.product_urls := by
    rw [mergeResult_product_urls]
    split
    · next hc =>
      have h0 : max_urls - st.product_urls.length = 0 := by omega
      rw [h0]
      simp
    · next hc =>
      have h0 : (pp.filter (fun u => decide (u ∉ st.product_urls))).length = 0 := by omega
      rw [List.length_eq_zero] at h0
      rw [h0]
      simp
  refine ⟨hp, ?_⟩
  rw [mergeResult_urls_to_visit, hp]
  rw [if_neg (by omega)]

theorem classifyLinks_all_invalid {d pat : Chars} {visited links : List Chars}
    (h : ∀ l ∈ links, is_valid_url d l = false) :
    classifyLinks d pat visited links ([], []) = ([], []) := by
  have h1 : (classifyLinks d pat visited links ([], [])).1 = [] := by
    rw [List.eq_nil_iff_forall_not_mem]
    intro u hu
    rw [classifyLinks_fst_mem] at hu
    rcases hu with hu | hu
    · exact absurd hu (by simp)
    · exact absurd hu.2.1 (by simp [h u hu.1])
  have h2 : (classifyLinks d pat visited links ([], [])).2 = [] := by
    rw [List.eq_nil_iff_forall_not_mem]
    intro u hu
    rw [classifyLinks_snd_mem] at hu
    rcases hu with hu | hu
    · exact absurd hu (by simp)
    · exact absurd hu.2.1 (by simp [h u hu.1])
  calc classifyLinks d pat visited links ([], [])
      = ((classifyLinks d pat visited links ([], [])).1,
         (classifyLinks d pat visited links ([], [])).2) := rfl
    _ = ([], []) := by rw [h1, h2]

theorem process_page_no_valid_links {env : Env} {d pat : Chars} {v : List Chars}
    {url : Chars} (hv : url ∉ v)
    (h : ∀ links, get_page (env.fetch url) = some links →
      ∀ l ∈ links, is_valid_url d l = false) :
    process_page env d pat v url = (setAdd v url, ([], [])) := by
  unfold process_page
  rw [if_neg hv]
  cases hg : get_page (env.fetch url) with
  | none => rfl
  | some links =>
    simp only
    rw [classifyLinks_all_invalid (h links hg)]

theorem runBatch_eq (env : Env) (d pat : Chars) (max_urls : Nat) (st : CrawlState) :
    runBatch env d pat max_urls st =
      List.foldl (batchStep env d pat max_urls)
        { st with urls_to_visit := st.urls_to_visit.drop batch_bound }
        (st.urls_to_visit.take batch_bound) := rfl

theorem runBatch_seed_no_valid_links {env : Env} {d pat : Chars} {max_urls : Nat}
    {site_info : SiteInfo}
    (h : ∀ links, get_page (env.fetch site_info.base_url) = some links →
      ∀ l ∈ links, is_valid_url d l = false) :
    runBatch env d pat max_urls (initCrawlState site_info) =
      ⟨[site_info.base_url], [], []⟩ := by
  rw [runBatch_eq]
  show List.foldl (batchStep env d pat max_urls) ⟨[], [], []⟩ [site_info.base_url] =
    ⟨[site_info.base_url], [], []⟩
  show batchStep env d pat max_urls ⟨[], [], []⟩ site_info.base_url =
    ⟨[site_info.base_url], [], []⟩
  unfold batchStep
  rw [process_page_no_valid_links (by simp) h]
  show mergeResult max_urls ⟨[site_info.base_url], [], []⟩ [] [] =
    ⟨[site_info.base_url], [], []⟩
  unfold mergeResult
  simp

theorem crawlLoop_seed_no_valid_links {env : Env} {d pat : Chars} {max_urls : Nat}
    {site_info : SiteInfo}
    (h : ∀ links, get_page (env.fetch site_info.base_url) = some links →
      ∀ l ∈ links, is_valid_url d l = false) (fuel : Nat) :
    crawlLoop env d pat max_urls fuel (initCrawlState site_info) = [] := by
  cases fuel with
  | zero => rfl
  | succ n =>
    unfold crawlLoop
    split
    · rw [runBatch_seed_no_valid_links h]
      exact crawlLoop_empty_frontier n rfl
    · rfl

/-! Linking the batch-boundary trace to the loop result. -/

theorem crawlTrace_ne_nil (env : Env) (d pat : Chars) (max_urls : Nat) :
    ∀ (fuel : Nat) (st : CrawlState), crawlTrace env d pat max_urls fuel st ≠ [] := by
  intro fuel st
  cases fuel with
  | zero => simp [crawlTrace]
  | succ n =>
    unfold crawlTrace
    split
    · simp
    · simp

theorem getLastD_of_ne_nil {α : Type} {l : List α} (h : l ≠ []) (a b : α) :
    l.getLastD a = l.getLastD b := by
  cases l with
  | nil => exact absurd rfl h
  | cons x xs => rw [List.getLastD_cons, List.getLastD_cons]

theorem crawlLoop_eq_trace (env : Env) (d pat : Chars) (max_urls : Nat) :
    ∀ (fuel : Nat) (st : CrawlState),
      crawlLoop env d pat max_urls fuel st =
        ((crawlTrace env d pat max_urls fuel st).getLastD st).product_urls := by
  intro fuel
  induction fuel with
  | zero => intro st; rfl
  | succ n ih =>
    intro st
    unfold crawlLoop crawlTrace
    by_cases hc : st.urls_to_visit ≠ [] ∧ st.product_urls.length < max_urls
    · rw [if_pos hc, if_pos hc, List.getLastD_cons, ih]
      exact congrArg CrawlState.product_urls
        (getLastD_of_ne_nil (crawlTrace_ne_nil env d pat max_urls n _) _ _)
    · rw [if_neg hc, if_neg hc]
      rfl

/-! Mutual-exclusion argument for the spec-modelled atomic test-and-set. -/

/-- A worker has passed the test-and-set and is bound to fetch (or has fetched). -/
def entered (w : Worker) : Prop := w.pc = 2 ∨ w.fetched = true

structure AtomicInv (url : Chars) (s : RaceState) : Prop where
  not_both : ¬ (entered s.w1 ∧ entered s.w2)
  mem : entered s.w1 ∨ entered s.w2 → url ∈ s.visited

theorem stepWorkerAtomic_cases (url : Chars) (v : List Chars) (w : Worker) :
    stepWorkerAtomic url (v, w) = (v, w) ∨
    (w.pc = 0 ∧ url ∈ v ∧ stepWorkerAtomic url (v, w) = (v, { w with pc := 3 })) ∨
    (w.pc = 0 ∧ url ∉ v ∧ stepWorkerAtomic url (v, w) = (setAdd v url, { w with pc := 2 })) ∨
    (w.pc = 2 ∧ stepWorkerAtomic url (v, w) = (v, ⟨3, true⟩)) := by
  unfold stepWorkerAtomic
  by_cases h0 : w.pc = 0
  · by_cases hm : url ∈ v
    · exact Or.inr (Or.inl ⟨h0, hm, by simp [h0, hm]⟩)
    · exact Or.inr (Or.inr (Or.inl ⟨h0, hm, by simp [h0, hm]⟩))
  · by_cases h2 : w.pc = 2
    · exact Or.inr (Or.inr (Or.inr ⟨h2, by simp [h0, h2]⟩))
    · exact Or.inl (by simp [h0, h2])

theorem raceStepAtomic_inv {url : Chars} {s : RaceState} (choice : Bool)
    (h : AtomicInv url s) : AtomicInv url (raceStepAtomic url s choice) := by
  obtain ⟨v, w1, w2⟩ := s
  cases choice
  · show AtomicInv url
      (let r := stepWorkerAtomic url (v, w2); { visited := r.1, w1 := w1, w2 := r.2 })
    rcases stepWorkerAtomic_cases url v w2 with hc | ⟨h0, hm, hc⟩ | ⟨h0, hm, hc⟩ | ⟨h2, hc⟩ <;>
      rw [hc]
    · exact ⟨h.not_both, h.mem⟩
    · refine ⟨fun hb => h.not_both ⟨hb.1, ?_⟩, fun hb => h.mem ?_⟩
      · rcases hb.2 with hp | hf
        · exact absurd hp (by simp)
        · exact Or.inr hf
      · rcases hb with hb | hb
        · exact Or.inl hb
        · rcases hb with hp | hf
          · exact absurd hp (by simp)
          · exact Or.inr (Or.inr hf)
    · have hno : ¬ (entered w1 ∨ entered w2) := fun he => hm (h.mem he)
      refine ⟨fun hb => hno (Or.inl hb.1), fun _ => ?_⟩
      rw [setAdd_mem]
      exact Or.inr rfl
    · have he2 : entered w2 := Or.inl h2
      refine ⟨fun hb => h.not_both ⟨hb.1, he2⟩, fun _ => h.mem (Or.inr he2)⟩
  · show AtomicInv url
      (let r := stepWorkerAtomic url (v, w1); { visited := r.1, w1 := r.2, w2 := w2 })
    rcases stepWorkerAtomic_cases url v w1 with hc | ⟨h0, hm, hc⟩ | ⟨h0, hm, hc⟩ | ⟨h2, hc⟩ <;>
      rw [hc]
    · exact ⟨h.not_both, h.mem⟩
    · refine ⟨fun hb => h.not_both ⟨?_, hb.2⟩, fun hb => h.mem ?_⟩
      · rcases hb.1 with hp | hf
        · exact absurd hp (by simp)
        · exact Or.inr hf
      · rcases hb with hb | hb
        · rcases hb with hp | hf
          · exact absurd hp (by simp)
          · exact Or.inl (Or.inr hf)
        · exact Or.inr hb
    · have hno : ¬ (entered w1 ∨ entered w2) := fun he => hm (h.mem he)
      refine ⟨fun hb => hno (Or.inr hb.2), fun _ => ?_⟩
      rw [setAdd_mem]
      exact Or.inr rfl
    · have he1 : entered w1 := Or.inl h2
      refine ⟨fun hb => h.not_both ⟨he1, hb.2⟩, fun _ => h.mem (Or.inl he1)⟩

theorem raceRunAtomic_inv (url : Chars) :
    ∀ (sched : List Bool) (s : RaceState), AtomicInv url s →
      AtomicInv url (raceRunAtomic url sched s) := by
  intro sched
  induction sched with
  | nil => intro s h; exact h
  | cons c cs ih =>
    intro s h
    exact ih _ (raceStepAtomic_inv c h)

theorem raceRunAtomic_mutual_exclusion (url : Chars) (sched : List Bool) :
    ¬ ((raceRunAtomic url sched initRaceState).w1.fetched = true ∧
       (raceRunAtomic url sched initRaceState).w2.fetched = true) := by
  intro hb
  have h0 : AtomicInv url initRaceState := by
    refine ⟨fun hc => ?_, fun hc => ?_⟩
    · rcases hc.1 with hp | hf
      · exact absurd hp (by simp [initRaceState])
      · exact absurd hf (by simp [initRaceState])
    · rcases hc with hc | hc <;> rcases hc with hp | hf
      · exact absurd hp (by simp [initRaceState])
      · exact absurd hf (by simp [initRaceState])
      · exact absurd hp (by simp [initRaceState])
      · exact absurd hf (by simp [initRaceState])
  exact (raceRunAtomic_inv url sched initRaceState h0).not_both
    ⟨Or.inr hb.1, Or.inr hb.2⟩

theorem find_product_urls_err {env : Env} {s : ScraperState} {site_name : String}
    {max_urls fuel : Nat} (h : dictGet TARGET_SITES site_name = none) :
    find_product_urls env s site_name max_urls fuel = Except.error "KeyError" := by
  unfold find_product_urls
  rw [h]

/-! Claim theorems. -/

/-- C1: for every invocation that returns a list, the list has length at most
`max_urls`; and at the budget boundary, when the accumulator holds
`max_urls - m` URLs and a page contributes more than `m` new product links,
exactly `m` of them are admitted and the accumulator reaches size exactly
`max_urls`. -/
theorem C1_budget :
    (∀ (env : Env) (s : ScraperState) (site_name : String) (max_urls fuel : Nat)
        (res : List Chars),
        find_product_urls env s site_name max_urls fuel = Except.ok res →
        res.length ≤ max_urls)
  ∧ (∀ (max_urls m : Nat) (st : CrawlState) (pp pc : List Chars),
        st.product_urls.length = max_urls - m → m ≤ max_urls →
        m < (pp.filter (fun u => decide (u ∉ st.product_urls))).length →
        (mergeResult max_urls st pp pc).product_urls =
          st.product_urls ++ (pp.filter (fun u => decide (u ∉ st.product_urls))).take m ∧
        (mergeResult max_urls st pp pc).product_urls.length = max_urls) := by
  constructor
  · intro env s site_name max_urls fuel res hres
    cases hd : dictGet TARGET_SITES site_name with
    | none => rw [find_product_urls_err hd] at hres; cases hres
    | some info => exact (find_product_urls_spec hd hres).1
  · intro max_urls m st pp pc hlen hm hk
    exact mergeResult_boundary hlen hm hk

theorem C1_budget_witness :
    ([] : List Chars).length ≤ 5 ∧
    (mergeResult 2 ⟨[], [], []⟩ [toChars "a", toChars "b", toChars "c"] []).product_urls =
      ([] : List Chars) ++ (([toChars "a", toChars "b", toChars "c"]).filter
        (fun u => decide (u ∉ (⟨[], [], []⟩ : CrawlState).product_urls))).take 2 ∧
    (mergeResult 2 ⟨[], [], []⟩ [toChars "a", toChars "b", toChars "c"] []).product_urls.length = 2 :=
  ⟨C1_budget.1 envEmpty freshScraper "vaperanger" 5 3 [] (by rfl),
   (C1_budget.2 2 2 ⟨[], [], []⟩ [toChars "a", toChars "b", toChars "c"] []
     (by decide) (by decide) (by decide)).1,
   (C1_budget.2 2 2 ⟨[], [], []⟩ [toChars "a", toChars "b", toChars "c"] []
     (by decide) (by decide) (by decide)).2⟩

/-- C2: every URL in a returned list contains the site's configured product-URL
pattern as a substring, has network location exactly the site's base domain,
and the list has no duplicates. -/
theorem C2_output_contract :
    ∀ (env : Env) (s : ScraperState) (site_name : String) (site_info : SiteInfo)
      (max_urls fuel : Nat) (res : List Chars),
      dictGet TARGET_SITES site_name = some site_info →
      find_product_urls env s site_name max_urls fuel = Except.ok res →
      (∀ u ∈ res, chContains u site_info.product_pattern = true ∧
        netloc u = netloc site_info.base_url) ∧ res.Nodup := by
  intro env s site_name site_info max_urls fuel res hd hres
  obtain ⟨_, hnd, hgood⟩ := find_product_urls_spec hd hres
  refine ⟨fun u hu => ?_, hnd⟩
  obtain ⟨hv, hp⟩ := hgood u hu
  exact ⟨hp, is_valid_url_eq_true hv⟩

theorem C2_output_contract_witness :
    (∀ u ∈ [toChars "https://vaperanger.com/products/a"],
      chContains u (toChars "/products/") = true ∧
      netloc u = netloc (toChars "https://vaperanger.com")) ∧
    ([toChars "https://vaperanger.com/products/a"]).Nodup :=
  C2_output_contract envWitness freshScraper "vaperanger"
    ⟨toChars "https://vaperanger.com", toChars "/products/"⟩ 5 3
    [toChars "https://vaperanger.com/products/a"] (by rfl) (by rfl)

/-- C3: the membership test at scraper.py:58 is evaluated outside the lock that
guards the insertion at scraper.py:61-62, so the test and the insertion do NOT
form one atomic test-and-set: under the interleaving in which both workers
evaluate the membership test before either inserts, both proceed to fetch the
same not-yet-visited URL.  Under the atomic test-and-set the spec describes
(the second, spec-modelled step function), no interleaving lets both workers
fetch. -/
theorem C3_visited_check_race :
    ((raceRun (toChars "https://vaperanger.com/products/a")
        [true, false, true, true, false, false] initRaceState).w1.fetched = true ∧
     (raceRun (toChars "https://vaperanger.com/products/a")
        [true, false, true, true, false, false] initRaceState).w2.fetched = true)
  ∧ (∀ (url : Chars) (sched : List Bool),
      ((raceRunAtomic url sched initRaceState).w1.fetched &&
       (raceRunAtomic url sched initRaceState).w2.fetched) = false) := by
  constructor
  · exact ⟨by rfl, by rfl⟩
  · intro url sched
    have h := raceRunAtomic_mutual_exclusion url sched
    cases h1 : (raceRunAtomic url sched initRaceState).w1.fetched
    · simp
    · cases h2 : (raceRunAtomic url sched initRaceState).w2.fetched
      · simp
      · exact absurd ⟨h1, h2⟩ h

/-- C4 counterexample: during the crawl of the concrete environment `envC4`
(seed page links to two category pages, the first of which links to the
second), a batch-boundary state of the `find_product_urls` invocation holds
`.../category/b` in the frontier and in the visited set at the same time: one
worker of the second batch enqueues it as a category link while another worker
of the same batch — having already been drawn from the frontier — visits it. -/
theorem C4_disjointness_counterexample :
    ∃ st ∈ find_product_urls_states envC4 freshScraper "vaperanger" 10 5,
      toChars "https://vaperanger.com/category/b" ∈ st.urls_to_visit ∧
      toChars "https://vaperanger.com/category/b" ∈ st.visited_urls := by decide

/-- C4 as amended: the frontier and the visited set are disjoint in the state
the crawl starts from, but not at every later point; a URL that is in both is
skipped by `process_page` without any work when it is drawn again, so the
overlap never causes a second fetch in the sequential semantics. -/
theorem C4_disjointness_amended :
    (∀ site_info : SiteInfo,
      ∀ u ∈ (initCrawlState site_info).urls_to_visit,
        u ∉ (initCrawlState site_info).visited_urls)
  ∧ (∀ (env : Env) (d pat : Chars) (visited : List Chars) (url : Chars),
      url ∈ visited → process_page env d pat visited url = (visited, ([], []))) := by
  constructor
  · intro site_info u _ hu
    simp [initCrawlState] at hu
  · intro env d pat visited url h
    exact process_page_visited h

theorem C4_disjointness_amended_witness :
    process_page envEmpty (toChars "vaperanger.com") (toChars "/products/")
      [toChars "https://vaperanger.com"] (toChars "https://vaperanger.com") =
      ([toChars "https://vaperanger.com"], ([], [])) :=
  C4_disjointness_amended.2 envEmpty (toChars "vaperanger.com") (toChars "/products/")
    [toChars "https://vaperanger.com"] (toChars "https://vaperanger.com") (by decide)

/-- C5: the classifier keeps a resolved outbound link only when its network
location equals the (nonempty) base domain exactly; an in-domain link is a
product link iff the product pattern is a substring of it; an in-domain
non-product link is a candidate category link iff it is not already visited and
carries one of the fixed listing terms case-insensitively; every other link
appears in neither output. -/
theorem C5_classifier_partition :
    ∀ (base_domain pattern : Chars) (visited links : List Chars) (l : Chars),
      base_domain ≠ [] →
      ((l ∈ (classifyLinks base_domain pattern visited links ([], [])).1 ↔
          l ∈ links ∧ netloc l = base_domain ∧ is_product_url pattern l = true)
      ∧ (l ∈ (classifyLinks base_domain pattern visited links ([], [])).2 ↔
          l ∈ links ∧ netloc l = base_domain ∧ is_product_url pattern l = false ∧
            l ∉ visited ∧ hasListingTerm l = true)) := by
  intro d pat visited links l hd
  constructor
  · rw [classifyLinks_fst_mem]
    simp only [List.not_mem_nil, false_or]
    rw [is_valid_url_iff hd]
  · rw [classifyLinks_snd_mem]
    simp only [List.not_mem_nil, false_or]
    rw [is_valid_url_iff hd]

theorem C5_classifier_partition_witness :
    ((toChars "https://x.test/products/a" ∈
        (classifyLinks (toChars "x.test") (toChars "/products/") []
          [toChars "https://x.test/products/a"] ([], [])).1 ↔
      toChars "https://x.test/products/a" ∈ [toChars "https://x.test/products/a"] ∧
      netloc (toChars "https://x.test/products/a") = toChars "x.test" ∧
      is_product_url (toChars "/products/") (toChars "https://x.test/products/a") = true)
    ∧ (toChars "https://x.test/products/a" ∈
        (classifyLinks (toChars "x.test") (toChars "/products/") []
          [toChars "https://x.test/products/a"] ([], [])).2 ↔
      toChars "https://x.test/products/a" ∈ [toChars "https://x.test/products/a"] ∧
      netloc (toChars "https://x.test/products/a") = toChars "x.test" ∧
      is_product_url (toChars "/products/") (toChars "https://x.test/products/a") = false ∧
      toChars "https://x.test/products/a" ∉ ([] : List Chars) ∧
      hasListingTerm (toChars "https://x.test/products/a") = true)) :=
  C5_classifier_partition (toChars "x.test") (toChars "/products/") []
    [toChars "https://x.test/products/a"] (toChars "https://x.test/products/a")
    (by decide)

/-- C6: a fetch is attempted at most 3 times; when every attempt for a URL
fails, `process_page` degrades to the empty classification result for that URL
only; and for a registered site `find_product_urls` always returns an
accumulated list, never an error, whatever the fetch oracle does. -/
theorem C6_retry_and_degrade :
    (∀ fetch : Nat → Option (List Chars), get_page_attempts fetch ≤ 3)
  ∧ (∀ (env : Env) (d pat : Chars) (visited : List Chars) (url : Chars),
      url ∉ visited →
      (∀ a, a < max_retries → env.fetch url a = none) →
      (process_page env d pat visited url).2 = ([], []))
  ∧ (∀ (env : Env) (s : ScraperState) (site_name : String) (site_info : SiteInfo)
      (max_urls fuel : Nat),
      dictGet TARGET_SITES site_name = some site_info →
      ∃ res, find_product_urls env s site_name max_urls fuel = Except.ok res) := by
  refine ⟨?_, ?_, ?_⟩
  · intro fetch
    exact get_page_loop_attempts_le fetch max_retries 0
  · intro env d pat visited url hv hf
    unfold process_page
    rw [if_neg hv, get_page_none hf]
  · intro env s site_name site_info max_urls fuel hd
    exact ⟨_, find_product_urls_ok hd⟩

theorem C6_retry_and_degrade_witness :
    (process_page envFail (toChars "vaperanger.com") (toChars "/products/") []
      (toChars "https://vaperanger.com")).2 = ([], []) ∧
    ∃ res, find_product_urls envFail freshScraper "vaperanger" 5 3 = Except.ok res :=
  ⟨C6_retry_and_degrade.2.1 envFail (toChars "vaperanger.com") (toChars "/products/") []
    (toChars "https://vaperanger.com") (by decide) (fun a _ => rfl),
   C6_retry_and_degrade.2.2 envFail freshScraper "vaperanger"
    ⟨toChars "https://vaperanger.com", toChars "/products/"⟩ 5 3 (by rfl)⟩

/-- C7: when the frontier is empty the loop returns the accumulated URLs at
once, whatever fuel remains; and when the seed page yields no in-domain links
(or cannot be fetched), the whole invocation returns the empty list for every
fuel value — it does not depend on further iteration. -/
theorem C7_early_termination :
    (∀ (env : Env) (d pat : Chars) (max_urls fuel : Nat) (st : CrawlState),
      st.urls_to_visit = [] → st.product_urls.length < max_urls →
      crawlLoop env d pat max_urls fuel st = st.product_urls)
  ∧ (∀ (env : Env) (s : ScraperState) (site_name : String) (site_info : SiteInfo)
      (max_urls fuel : Nat),
      dictGet TARGET_SITES site_name = some site_info →
      (∀ links, get_page (env.fetch site_info.base_url) = some links →
        ∀ l ∈ links, is_valid_url (netloc site_info.base_url) l = false) →
      find_product_urls env s site_name max_urls fuel = Except.ok []) := by
  constructor
  · intro env d pat max_urls fuel st h _
    exact crawlLoop_empty_frontier fuel h
  · intro env s site_name site_info max_urls fuel hd hl
    rw [find_product_urls_ok hd, crawlLoop_seed_no_valid_links hl fuel]

theorem C7_early_termination_witness :
    crawlLoop envEmpty (toChars "vaperanger.com") (toChars "/products/") 5 7
      ⟨[toChars "https://vaperanger.com"], [toChars "https://vaperanger.com/products/a"], []⟩ =
      [toChars "https://vaperanger.com/products/a"] ∧
    find_product_urls envWitness freshScraper "vapewholesale" 5 3 = Except.ok [] :=
  ⟨C7_early_termination.1 envEmpty (toChars "vaperanger.com") (toChars "/products/") 5 7
    ⟨[toChars "https://vaperanger.com"], [toChars "https://vaperanger.com/products/a"], []⟩
    rfl (by decide),
   C7_early_termination.2 envWitness freshScraper "vapewholesale"
    ⟨toChars "https://vapewholesaleusa.com", toChars "/"⟩ 5 3 (by rfl)
    (by intro links hg l hl
        have : links = [] := by
          have hg2 : get_page (envWitness.fetch (toChars "https://vapewholesaleusa.com")) =
              some [] := by rfl
          rw [hg2] at hg
          exact (Option.some.inj hg).symm
        subst this
        cases hl)⟩

/-- C8: once the accumulated product URLs reach the budget, a merge step leaves
both the accumulator and the frontier unchanged (the completing workers'
results are discarded), and the loop draws no further batch: it returns the
accumulator immediately. -/
theorem C8_budget_freeze :
    (∀ (max_urls : Nat) (st : CrawlState) (pp pc : List Chars),
      max_urls ≤ st.product_urls.length →
      (mergeResult max_urls st pp pc).product_urls = st.product_urls ∧
      (mergeResult max_urls st pp pc).urls_to_visit = st.urls_to_visit)
  ∧ (∀ (env : Env) (d pat : Chars) (max_urls fuel : Nat) (st : CrawlState),
      max_urls ≤ st.product_urls.length →
      crawlLoop env d pat max_urls fuel st = st.product_urls) := by
  constructor
  · intro max_urls st pp pc h
    exact mergeResult_complete h
  · intro env d pat max_urls fuel st h
    exact crawlLoop_complete fuel h

theorem C8_budget_freeze_witness :
    ((mergeResult 1 ⟨[], [toChars "https://vaperanger.com/products/a"], []⟩
        [toChars "https://vaperanger.com/products/b"]
        [toChars "https://vaperanger.com/category/c"]).product_urls =
      [toChars "https://vaperanger.com/products/a"] ∧
     (mergeResult 1 ⟨[], [toChars "https://vaperanger.com/products/a"], []⟩
        [toChars "https://vaperanger.com/products/b"]
        [toChars "https://vaperanger.com/category/c"]).urls_to_visit = []) ∧
    crawlLoop envEmpty (toChars "vaperanger.com") (toChars "/products/") 1 9
      ⟨[], [toChars "https://vaperanger.com/products/a"], [toChars "https://vaperanger.com"]⟩ =
      [toChars "https://vaperanger.com/products/a"] :=
  ⟨C8_budget_freeze.1 1 ⟨[], [toChars "https://vaperanger.com/products/a"], []⟩
    [toChars "https://vaperanger.com/products/b"]
    [toChars "https://vaperanger.com/category/c"] (by decide),
   C8_budget_freeze.2 envEmpty (toChars "vaperanger.com") (toChars "/products/") 1 9
    ⟨[], [toChars "https://vaperanger.com/products/a"], [toChars "https://vaperanger.com"]⟩
    (by decide)⟩

/-- C9: one invocation starts from an empty visited set and a frontier holding
only the site's base URL, and its result is independent of whatever residual
state an earlier invocation left on the scraper object. -/
theorem C9_no_residual_state :
    (∀ site_info : SiteInfo, (initCrawlState site_info).visited_urls = [] ∧
      (initCrawlState site_info).urls_to_visit = [site_info.base_url])
  ∧ (∀ (env : Env) (site_name : String) (max_urls fuel : Nat)
      (s1 s2 : ScraperState),
      find_product_urls env s1 site_name max_urls fuel =
        find_product_urls env s2 site_name max_urls fuel) := by
  constructor
  · intro site_info
    exact ⟨rfl, rfl⟩
  · intro env site_name max_urls fuel s1 s2
    rfl

/-- C10: for a site name that is not a key of the configured registry,
`find_product_urls` fails with `KeyError` — uniformly in the fetch oracle, the
residual scraper state, the budget and the fuel, so no fetching is involved —
rather than returning a list. -/
theorem C10_unknown_site_keyerror :
    ∀ (env : Env) (s : ScraperState) (site_name : String) (max_urls fuel : Nat),
      dictGet TARGET_SITES site_name = none →
      find_product_urls env s site_name max_urls fuel = Except.error "KeyError" := by
  intro env s site_name max_urls fuel h
  exact find_product_urls_err h

theorem C10_unknown_site_keyerror_witness :
    find_product_urls envWitness staleScraper "amazon" 50 9 = Except.error "KeyError" :=
  C10_unknown_site_keyerror envWitness staleScraper "amazon" 50 9 (by rfl)
